import Mathlib

/-!
Shallow embedding of the conversion orchestration and progress-parsing
engine of the video converter (src/utils.py and the batch loop of
src/main.py), together with theorems settling the specification claims.

External effects (subprocess spawning, the bytes the tool writes on its
diagnostic stream, the exit status, the state of the output file) are
modelled as explicit environment values; the Python functions become total
Lean functions over those environments.  Python floats are modelled as
rationals, machine exceptions as an explicit `PyExn` type: a Python
function that can let an exception escape returns `Except PyExn _`, one
that catches everything returns a plain value.
-/

namespace VideoConverter

/-! ### Python exception model -/

/-- The exception kinds relevant to the subprocess calls in src/utils.py.
`timeoutExpired`, `fileNotFound` and `subprocessError` are the classes
named in the `except` tuple of `is_ffmpeg_installed` (src/utils.py line 33);
`permissionError` stands for an `OSError` raised at spawn that is in none
of those classes; `other` covers any remaining exception. -/
inductive PyExn where
  | timeoutExpired
  | fileNotFound
  | subprocessError
  | permissionError
  | other (msg : String)
deriving DecidableEq

/-- Whether an exception is matched by the tuple
`(subprocess.TimeoutExpired, FileNotFoundError, subprocess.SubprocessError)`
on src/utils.py line 33. -/
def caughtByVersionProbe : PyExn → Bool
  | .timeoutExpired => true
  | .fileNotFound => true
  | .subprocessError => true
  | _ => false

/-! ### ToolAvailability: FFmpegHandler.is_ffmpeg_installed -/

/-- Outcome of a `subprocess.run` call: either the subprocess completed
with a return code (and captured stdout), or the call raised. -/
inductive RunOutcome where
  | completed (returncode : Int) (stdout : String)
  | raised (e : PyExn)
deriving DecidableEq

/-- `FFmpegHandler.is_ffmpeg_installed` (src/utils.py lines 23-34): runs
`ffmpeg -version`; returns `returncode == 0` on completion; the `except`
clause turns `TimeoutExpired`, `FileNotFoundError` and `SubprocessError`
into `False`; any other exception escapes to the caller (`.error`). -/
def is_ffmpeg_installed (o : RunOutcome) : Except PyExn Bool :=
  match o with
  | .completed rc _ => .ok (rc == 0)
  | .raised e => if caughtByVersionProbe e then .ok false else .error e

/-! ### Digit scanning shared by the timestamp regex and float parsing -/

/-- Maximal leading run of decimal digits of a character list, with the
rest: the semantics of a greedy `\d+` (or `\d*`) at the current position. -/
def takeDigits : List Char → List Char × List Char
  | [] => ([], [])
  | c :: cs =>
    if c.isDigit then
      let (ds, r) := takeDigits cs
      (c :: ds, r)
    else ([], c :: cs)

/-- Value of a decimal digit string, as Python `int` reads it. -/
def digitsVal (ds : List Char) : ℕ :=
  ds.foldl (fun a c => 10 * a + (c.toNat - 48)) 0

/-! ### MediaProbe: VideoProcessor._get_video_duration -/

/-- Model of Python `float(s)` on an already-stripped string, returning
`none` where `float` raises `ValueError`.  Grammar handled:
`[+|-] (digits [. digits] | . digits | digits .) [(e|E) [+|-] digits]`.
(Non-finite spellings such as `inf`/`nan` are not representable as
rationals and are out of the model.) -/
def parseFloat (s : String) : Option ℚ :=
  let cs := s.data
  let (sign, cs) :=
    match cs with
    | '+' :: r => ((1 : ℚ), r)
    | '-' :: r => ((-1 : ℚ), r)
    | r => ((1 : ℚ), r)
  let (intDs, cs) := takeDigits cs
  let (fracDs, cs) :=
    match cs with
    | '.' :: r => takeDigits r
    | r => ([], r)
  -- a mantissa is present iff at least one digit appeared on either side
  if intDs = [] ∧ fracDs = [] then none
  else
    let mant : ℚ :=
      (digitsVal intDs : ℚ) + (digitsVal fracDs : ℚ) / (10 : ℚ) ^ fracDs.length
    match cs with
    | [] => some (sign * mant)
    | e :: r =>
      if e = 'e' ∨ e = 'E' then
        let (esign, r) :=
          match r with
          | '+' :: r2 => (true, r2)
          | '-' :: r2 => (false, r2)
          | r2 => (true, r2)
        let (expDs, r) := takeDigits r
        if expDs = [] ∨ r ≠ [] then none
        else
          let p : ℚ := (10 : ℚ) ^ digitsVal expDs
          some (sign * (if esign then mant * p else mant / p))
      else none

/-- Python whitespace as stripped by `str.strip()`. -/
def isPySpace (c : Char) : Bool :=
  c = ' ' ∨ c = '\t' ∨ c = '\n' ∨ c = '\r' ∨ c = '\x0b' ∨ c = '\x0c'

/-- Python `str.strip()` on the captured stdout: drop leading and trailing
whitespace. -/
def pyStrip (s : String) : String :=
  ⟨((s.data.dropWhile isPySpace).reverse.dropWhile isPySpace).reverse⟩

/-- Python `str.lower()` (the format names involved are ASCII). -/
def pyLower (s : String) : String := ⟨s.data.map Char.toLower⟩

/-- `VideoProcessor._get_video_duration` (src/utils.py lines 317-330):
runs ffprobe; on return code 0 strips stdout and returns
`float(duration_str) if duration_str else None`; a non-zero exit falls
through to `return None`; every exception (timeout, spawn failure, the
`ValueError` from `float`) is caught by `except Exception` and also yields
`None`.  Total: no exception reaches the caller. -/
def get_video_duration (o : RunOutcome) : Option ℚ :=
  match o with
  | .completed rc out =>
    if rc = 0 then
      let s := pyStrip out
      if s = "" then none else parseFloat s
    else none
  | .raised _ => none

/-! ### Progress parsing: the regex and arithmetic of convert_video -/

/-- The four captured groups of `time=(\d+):(\d+):(\d+)\.(\d+)` after
`map(int, ...)` (src/utils.py lines 297-299).  The last group is named as
in the source: the code reads the fractional digit string as an integer
count of centiseconds. -/
structure TimeMatch where
  hours : ℕ
  minutes : ℕ
  seconds : ℕ
  centiseconds : ℕ
deriving DecidableEq

/-- Match `time=(\d+):(\d+):(\d+)\.(\d+)` anchored at the head of the
list.  Greedy `\d+` with non-digit literal separators needs no
backtracking, so maximal munch is exact. -/
def matchTimeAt (l : List Char) : Option TimeMatch :=
  match l with
  | 't' :: 'i' :: 'm' :: 'e' :: '=' :: r0 =>
    let (h, r1) := takeDigits r0
    if h = [] then none else
    match r1 with
    | ':' :: r2 =>
      let (m, r3) := takeDigits r2
      if m = [] then none else
      match r3 with
      | ':' :: r4 =>
        let (s, r5) := takeDigits r4
        if s = [] then none else
        match r5 with
        | '.' :: r6 =>
          let (c, _) := takeDigits r6
          if c = [] then none
          else some ⟨digitsVal h, digitsVal m, digitsVal s, digitsVal c⟩
        | _ => none
      | _ => none
    | _ => none
  | _ => none

/-- `re.search(r'time=(\d+):(\d+):(\d+)\.(\d+)', line)` (src/utils.py
line 297): first position, scanning left to right, where the pattern
matches. -/
def searchTime (l : List Char) : Option TimeMatch :=
  match l with
  | [] => none
  | _ :: rest =>
    match matchTimeAt l with
    | some m => some m
    | none => searchTime rest

/-- `current_time = hours * 3600 + minutes * 60 + seconds +
centiseconds / 100` (src/utils.py line 300): the fractional digit string,
read as an integer, is divided by the constant 100. -/
def current_time (m : TimeMatch) : ℚ :=
  m.hours * 3600 + m.minutes * 60 + m.seconds + (m.centiseconds : ℚ) / 100

/-- Elapsed seconds the code computes from one diagnostic line, when the
timestamp pattern matches. -/
def lineElapsed (l : List Char) : Option ℚ :=
  (searchTime l).map current_time

/-- The elapsed-seconds values obtained from a whole diagnostic stream, in
stream order. -/
def elapsedTimes (lines : List (List Char)) : List ℚ :=
  lines.filterMap lineElapsed

/-- One iteration of the stderr loop (src/utils.py lines 296-302): with a
progress callback present and a truthy duration (Python: not `None` and
not `0.0`), a line whose timestamp matches produces the callback argument
`min((current_time / duration) * 100, 100)`; otherwise no event. -/
def processLine (hasCallback : Bool) (duration : Option ℚ) (l : List Char) :
    Option ℚ :=
  match duration with
  | some d =>
    if hasCallback = true ∧ d ≠ 0 then
      match searchTime l with
      | some tm => some (min (current_time tm / d * 100) 100)
      | none => none
    else none
  | none => none

/-- The percent values delivered to the progress callback over the whole
diagnostic stream, in delivery order. -/
def progressEvents (hasCallback : Bool) (duration : Option ℚ)
    (lines : List (List Char)) : List ℚ :=
  lines.filterMap (processLine hasCallback duration)

/-! ### Argument construction of convert_video -/

/-- Python slice assignment `l[i:j] = xs` on a list (for `i ≤ j ≤ len l`):
the elements at positions `i` to `j-1` are removed and `xs` is inserted in
their place (the lengths need not agree). -/
def sliceAssign {α : Type} (l : List α) (i j : ℕ) (xs : List α) : List α :=
  l.take i ++ xs ++ l.drop j

/-- The FFmpeg command list built by `convert_video` (src/utils.py lines
261-276): the base list hard-codes `-c:v libx264 -c:a aac`; for `webm` the
two slots `cmd[5:7]` (which hold `"-c:a", "aac"`) are replaced by the four
elements `"-c:v", "libvpx-vp9", "-c:a", "libopus"`; for `mov`/`m4v` they
are replaced by `"-c:v", "libx264", "-c:a", "aac"`. -/
def buildCmd (input_file output_file output_format : String) : List String :=
  let cmd : List String :=
    ["ffmpeg", "-i", input_file,
     "-c:v", "libx264",
     "-c:a", "aac",
     "-preset", "medium",
     "-crf", "23",
     "-movflags", "+faststart",
     "-y",
     output_file]
  if pyLower output_format = "webm" then
    sliceAssign cmd 5 7 ["-c:v", "libvpx-vp9", "-c:a", "libopus"]
  else if pyLower output_format = "mov" ∨ pyLower output_format = "m4v" then
    sliceAssign cmd 5 7 ["-c:v", "libx264", "-c:a", "aac"]
  else cmd

/-! ### convert_video execution model -/

/-- What the conversion subprocess interaction amounted to: either some
exception was raised inside the `try` block (at `Popen`, while reading
stderr, inside the progress callback, or at `wait`), after `linesRead`
stderr lines had already been consumed, or the loop read all of `lines`
and `wait` returned `returncode`. -/
inductive ExecResult where
  | raised (linesRead : List (List Char)) (e : PyExn)
  | exited (lines : List (List Char)) (returncode : Int)
deriving DecidableEq

/-- The external world of one conversion job: the outcome of the ffprobe
duration call, the outcome of the conversion subprocess, and the state of
the output file after the run (`none` = `os.path.exists` is false,
`some n` = the file exists with size `n` bytes). -/
structure JobEnv where
  probe : RunOutcome
  exec : ExecResult
  output : Option ℕ
deriving DecidableEq

/-- Whether `os.path.exists(output_file)` holds in a job environment. -/
def outputExists (env : JobEnv) : Bool := env.output.isSome

/-- `VideoProcessor.convert_video` (src/utils.py lines 257-315): returns
the success flag and the list of percent values passed to the progress
callback.  The whole body is inside `try`; `except Exception` turns any
raised exception into `return False` (the events already delivered before
the exception stand).  On normal exit the result is
`return_code == 0 and os.path.exists(output_file)` — the file's size is
never consulted. -/
def convert_video (hasCallback : Bool) (env : JobEnv) : Bool × List ℚ :=
  let duration := get_video_duration env.probe
  match env.exec with
  | .raised linesRead _ =>
    (false, progressEvents hasCallback duration linesRead)
  | .exited lines rc =>
    if rc = 0 ∧ outputExists env = true then
      (true, progressEvents hasCallback duration lines)
    else
      (false, progressEvents hasCallback duration lines)

/-- The success condition in the words of the specification (for
comparison with what the code computes): exit status is the success code
AND the expected output file exists and is non-empty. -/
def specSuccessCond (rc : Int) (output : Option ℕ) : Prop :=
  rc = 0 ∧ ∃ n, output = some n ∧ 0 < n

/-! ### BatchCoordinator: the conversion loop of start_conversion -/

/-- The `conversion_thread` loop of `VideoConverterApp.start_conversion`
(src/main.py lines 301-332): iterates over the selected files in order;
for each it calls `convert_video` (always passing a progress callback) and
logs one success or failure line.  Modelled as the ordered list of
per-file outcomes; `convert_video` is total, so no iteration can abort the
loop. -/
def conversion_thread (jobs : List (String × JobEnv)) : List (String × Bool) :=
  match jobs with
  | [] => []
  | (f, env) :: rest =>
    (f, (convert_video true env).1) :: conversion_thread rest

/-! ### Helper lemmas -/

/-- A loop iteration yields no event when the callback is missing or the
duration is absent or `0.0` (Python falsy). -/
lemma processLine_eq_none (hasCb : Bool) (dur : Option ℚ) (l : List Char)
    (h : hasCb = false ∨ dur = none ∨ dur = some 0) :
    processLine hasCb dur l = none := by
  rcases h with h | h | h
  · subst h
    cases dur with
    | none => rfl
    | some d => simp [processLine]
  · subst h; rfl
  · subst h; simp [processLine]

/-- With a callback and a truthy duration, the event stream is exactly the
elapsed-time stream pushed through the percent formula. -/
lemma progressEvents_true_eq_map (d : ℚ) (hd : d ≠ 0)
    (lines : List (List Char)) :
    progressEvents true (some d) lines =
      (elapsedTimes lines).map (fun t => min (t / d * 100) 100) := by
  induction lines with
  | nil => rfl
  | cons l rest ih =>
    cases hs : searchTime l with
    | none =>
      simp [progressEvents, elapsedTimes, List.filterMap_cons, processLine,
        lineElapsed, hs, hd] at ih ⊢
      exact ih
    | some tm =>
      simp [progressEvents, elapsedTimes, List.filterMap_cons, processLine,
        lineElapsed, hs, hd] at ih ⊢
      exact ih

/-- Elapsed seconds computed from a timestamp match are nonnegative. -/
lemma current_time_nonneg (m : TimeMatch) : 0 ≤ current_time m := by
  unfold current_time
  positivity

/-- Every elapsed time extracted from a stream is nonnegative. -/
lemma elapsedTimes_nonneg (lines : List (List Char)) :
    ∀ t ∈ elapsedTimes lines, 0 ≤ t := by
  intro t ht
  simp only [elapsedTimes, List.mem_filterMap, lineElapsed] at ht
  obtain ⟨l, -, hl⟩ := ht
  cases hs : searchTime l with
  | none => rw [hs] at hl; simp at hl
  | some m =>
    rw [hs] at hl
    simp only [Option.map_some'] at hl
    rw [← Option.some.inj hl]
    exact current_time_nonneg m

/-- The ordered per-file outcome list of the batch loop, as a map. -/
lemma conversion_thread_eq_map (jobs : List (String × JobEnv)) :
    conversion_thread jobs =
      jobs.map (fun j => (j.1, (convert_video true j.2).1)) := by
  induction jobs with
  | nil => rfl
  | cons j rest ih =>
    cases j
    simp [conversion_thread, ih]

/-! ### Claim theorems -/

/-- C1, counterexample.  The claim says parsing `time=00:01:30.5` and
`time=00:01:30.500` both yield 90.5 elapsed seconds.  On the code, the
fractional digit string is read as an integer and divided by the constant
100 (src/utils.py line 300), so `time=00:01:30.5` yields 90.05 (= 1801/20)
and `time=00:01:30.500` yields 95 — neither is 90.5 (= 181/2). -/
theorem elapsed_fraction_width_counterexample :
    lineElapsed "time=00:01:30.5".data = some (1801 / 20) ∧
    lineElapsed "time=00:01:30.500".data = some 95 ∧
    (1801 / 20 : ℚ) ≠ 181 / 2 ∧ (95 : ℚ) ≠ 181 / 2 := by
  have h1 : searchTime "time=00:01:30.5".data = some ⟨0, 1, 30, 5⟩ := rfl
  have h2 : searchTime "time=00:01:30.500".data = some ⟨0, 1, 30, 500⟩ := rfl
  refine ⟨?_, ?_, by norm_num, by norm_num⟩
  · simp [lineElapsed, h1, current_time]
    norm_num
  · simp [lineElapsed, h2, current_time]
    norm_num

/-- C1, amended.  convert_video reads the fractional component of a
`time=HH:MM:SS.f…` token as an integer count of centiseconds (divided by
the fixed constant 100), regardless of how many digits it has: parsing
`time=00:01:30.50` yields 90.5 elapsed seconds, while `time=00:01:30.5`
yields 90.05 and `time=00:01:30.500` yields 95.0. -/
theorem elapsed_fraction_is_centiseconds :
    lineElapsed "time=00:01:30.50".data = some (181 / 2) ∧
    lineElapsed "time=00:01:30.5".data = some (1801 / 20) ∧
    lineElapsed "time=00:01:30.500".data = some 95 := by
  have h0 : searchTime "time=00:01:30.50".data = some ⟨0, 1, 30, 50⟩ := rfl
  have h1 : searchTime "time=00:01:30.5".data = some ⟨0, 1, 30, 5⟩ := rfl
  have h2 : searchTime "time=00:01:30.500".data = some ⟨0, 1, 30, 500⟩ := rfl
  refine ⟨?_, ?_, ?_⟩ <;>
    simp [lineElapsed, h0, h1, h2, current_time] <;> norm_num

/-- C2, counterexample.  The claim says convert_video reports success iff
the exit status is 0 AND the output file exists and is non-empty.  On the
code the emptiness check is missing: with exit status 0 and an existing
but empty (0-byte) output file, convert_video returns success although the
claimed success condition is false. -/
theorem convert_success_empty_output_counterexample :
    (convert_video true
      ⟨.raised .timeoutExpired, .exited [] 0, some 0⟩).1 = true ∧
    ¬ specSuccessCond 0 (some 0) := by
  refine ⟨rfl, ?_⟩
  simp [specSuccessCond]

/-- C2, amended.  For a job whose subprocess runs to completion,
convert_video reports success iff the exit status is 0 AND the expected
output file exists (its size is not checked, so an empty output file still
counts as success); in particular a subprocess exit code of 1 yields
Failed even when the output file exists. -/
theorem convert_success_iff_exit_zero_and_output_exists
    (hasCb : Bool) (env : JobEnv) (lines : List (List Char)) (rc : Int)
    (h : env.exec = .exited lines rc) :
    ((convert_video hasCb env).1 = true ↔ rc = 0 ∧ env.output ≠ none) ∧
    (rc = 1 → (convert_video hasCb env).1 = false) := by
  have hmain : (convert_video hasCb env).1 = true ↔
      rc = 0 ∧ env.output ≠ none := by
    simp only [convert_video, h]
    split_ifs with hc
    · simp only [true_iff]
      exact ⟨hc.1, by simpa [outputExists, Option.isSome_iff_ne_none] using hc.2⟩
    · simp only [false_iff]
      intro hcontra
      exact hc ⟨hcontra.1, by
        simpa [outputExists, Option.isSome_iff_ne_none] using hcontra.2⟩
  refine ⟨hmain, fun hrc => ?_⟩
  cases hb : (convert_video hasCb env).1 with
  | false => rfl
  | true =>
    have := (hmain.mp hb).1
    rw [hrc] at this
    exact absurd this (by norm_num)

/-- C2 witness: a subprocess exit code of 1 yields Failed even though the
output file exists (size 7). -/
theorem convert_exit_one_failed_witness :
    (convert_video true
      ⟨.raised .timeoutExpired, .exited [] 1, some 7⟩).1 = false :=
  (convert_success_iff_exit_zero_and_output_exists true
    ⟨.raised .timeoutExpired, .exited [] 1, some 7⟩ [] 1 rfl).2 rfl

/-- C3, counterexample.  The claim says the argument list for `webm` never
contains a mix of the two codec families and that no default-family codec
selection remains.  On the code, the slice assignment `cmd[5:7] = [...]`
replaces the two audio-codec slots with four elements, leaving the default
`-c:v libx264` in place: the constructed list contains both `libx264` and
`libvpx-vp9`. -/
theorem buildCmd_webm_mixed_families_counterexample :
    "libx264" ∈ buildCmd "input.mp4" "output.webm" "webm" ∧
    "libvpx-vp9" ∈ buildCmd "input.mp4" "output.webm" "webm" := by
  have hw : pyLower "webm" = "webm" := by decide
  constructor <;> simp [buildCmd, sliceAssign, hw]

/-- C3, amended.  For target format `webm` the constructed argument list
is exactly
`ffmpeg -i IN -c:v libx264 -c:v libvpx-vp9 -c:a libopus -preset medium
-crf 23 -movflags +faststart -y OUT`: the open-codec pair `libvpx-vp9` /
`libopus` is appended as the later (hence effective, since the tool honors
the last occurrence of an option) selection for both streams, but the
default-family video selection `-c:v libx264` remains in the list, so the
list does contain codecs of both families. -/
theorem buildCmd_webm_layout (i o : String) :
    buildCmd i o "webm" =
      ["ffmpeg", "-i", i, "-c:v", "libx264", "-c:v", "libvpx-vp9",
       "-c:a", "libopus", "-preset", "medium", "-crf", "23",
       "-movflags", "+faststart", "-y", o] := by
  have hw : pyLower "webm" = "webm" := by decide
  simp [buildCmd, sliceAssign, hw]

/-- C4, counterexample.  The claim quantifies over every possible
diagnostic stream.  The code imposes no monotonicity: a stream whose
second timestamp is earlier than its first (duration 100) makes
convert_video deliver 20 and then 10 — a decreasing percent sequence. -/
theorem progress_events_not_monotone_counterexample :
    progressEvents true (some 100)
      ["time=00:00:20.00".data, "time=00:00:10.00".data] = [20, 10] ∧
    ¬ (20 : ℚ) ≤ 10 := by
  have h1 : searchTime "time=00:00:20.00".data = some ⟨0, 0, 20, 0⟩ := rfl
  have h2 : searchTime "time=00:00:10.00".data = some ⟨0, 0, 10, 0⟩ := rfl
  constructor
  · simp [progressEvents, processLine, h1, h2, current_time]
    norm_num
  · norm_num

/-- C4, amended.  For a job with known positive duration, every percent
value delivered to the progress callback lies in [0, 100] (clamped at
100), and the delivered sequence is non-decreasing provided the elapsed
timestamps appearing in the diagnostic stream are themselves
non-decreasing (as they are in the tool's real output; the code adds no
monotonicity of its own). -/
theorem progress_events_in_range_and_monotone (hasCb : Bool) (d : ℚ)
    (hd : 0 < d) (lines : List (List Char))
    (hmono : (elapsedTimes lines).Chain' (· ≤ ·)) :
    (∀ p ∈ progressEvents hasCb (some d) lines, 0 ≤ p ∧ p ≤ 100) ∧
    (progressEvents hasCb (some d) lines).Chain' (· ≤ ·) := by
  cases hasCb with
  | false =>
    have hnil : progressEvents false (some d) lines = [] :=
      List.filterMap_eq_nil_iff.mpr fun l _ =>
        processLine_eq_none false (some d) l (Or.inl rfl)
    simp [hnil]
  | true =>
    rw [progressEvents_true_eq_map d hd.ne' lines]
    constructor
    · intro p hp
      simp only [List.mem_map] at hp
      obtain ⟨t, ht, rfl⟩ := hp
      have h0 : 0 ≤ t := elapsedTimes_nonneg lines t ht
      exact ⟨le_min (by positivity) (by norm_num), min_le_right _ _⟩
    · rw [List.chain'_map]
      refine hmono.imp fun a b hab => ?_
      have hdiv : a / d * 100 ≤ b / d * 100 := by gcongr
      exact min_le_min hdiv le_rfl

/-- C4 witness: a concrete one-line stream with duration 100 satisfies
the amended bounds and monotonicity. -/
theorem progress_events_in_range_witness :
    (∀ p ∈ progressEvents true (some 100) ["time=00:00:10.00".data],
      0 ≤ p ∧ p ≤ 100) ∧
    (progressEvents true (some 100) ["time=00:00:10.00".data]).Chain'
      (· ≤ ·) := by
  have hch : (elapsedTimes ["time=00:00:10.00".data]).Chain' (· ≤ ·) := by
    have hs : searchTime "time=00:00:10.00".data = some ⟨0, 0, 10, 0⟩ := rfl
    simp [elapsedTimes, lineElapsed, hs]
  exact progress_events_in_range_and_monotone true 100 (by norm_num) _ hch

/-- C5, counterexample.  The claim says no error is ever propagated to
the caller of the tool-availability probe.  The `except` clause on
src/utils.py line 33 names only `TimeoutExpired`, `FileNotFoundError` and
`SubprocessError`; a spawn failure of any other class — e.g. a
`PermissionError` for a present but non-executable tool — escapes to the
caller. -/
theorem version_probe_propagates_counterexample :
    is_ffmpeg_installed (.raised .permissionError) =
      .error .permissionError := rfl

/-- C5, amended.  The tool-availability probe returns true exactly when
the version-query subprocess completes with exit status zero; a non-zero
exit yields false, and a raise of `TimeoutExpired`, `FileNotFoundError`
or `SubprocessError` is caught and yields false — but an exception of any
other class (e.g. permission denied at spawn) is not caught and
propagates to the caller. -/
theorem version_probe_amended (o : RunOutcome) :
    (is_ffmpeg_installed o = .ok true ↔ ∃ out, o = .completed 0 out) ∧
    (∀ e, o = .raised e → caughtByVersionProbe e = true →
      is_ffmpeg_installed o = .ok false) ∧
    (∀ rc out, o = .completed rc out → rc ≠ 0 →
      is_ffmpeg_installed o = .ok false) ∧
    (∀ e, is_ffmpeg_installed o = .error e →
      o = .raised e ∧ caughtByVersionProbe e = false) := by
  refine ⟨?_, ?_, ?_, ?_⟩
  · cases o with
    | completed rc out =>
      simp only [is_ffmpeg_installed, Except.ok.injEq, beq_iff_eq]
      constructor
      · intro h
        exact ⟨out, by rw [h]⟩
      · rintro ⟨out2, hout⟩
        cases hout
        rfl
    | raised e =>
      by_cases hc : caughtByVersionProbe e = true <;>
        simp [is_ffmpeg_installed, hc]
  · intro e he hc
    subst he
    simp [is_ffmpeg_installed, hc]
  · intro rc out ho hrc
    subst ho
    simp [is_ffmpeg_installed, hrc]
  · intro e he
    cases o with
    | completed rc out => simp [is_ffmpeg_installed] at he
    | raised e2 =>
      by_cases hc : caughtByVersionProbe e2 = true
      · simp [is_ffmpeg_installed, hc] at he
      · simp [is_ffmpeg_installed, hc] at he
        subst he
        exact ⟨rfl, by simpa using hc⟩

/-- C5 witness: a clean zero exit makes the probe return true. -/
theorem version_probe_amended_witness :
    is_ffmpeg_installed (.completed 0 "ffmpeg version 6.0") = .ok true :=
  (version_probe_amended (.completed 0 "ffmpeg version 6.0")).1.mpr
    ⟨"ffmpeg version 6.0", rfl⟩

/-- C6 (confirmed).  The media-duration probe returns an absent duration,
never an exception, whenever the introspection subprocess raises (timeout
or any spawn/read failure), exits non-zero, produces no duration field
(empty stripped stdout), or produces a non-numeric duration (the
`ValueError` of `float` is absorbed by `except Exception`).  Totality —
`get_video_duration` returns a plain `Option ℚ`, not an `Except` — is the
no-exception part of the claim. -/
theorem duration_probe_absent_not_error (o : RunOutcome) :
    (∀ e, o = .raised e → get_video_duration o = none) ∧
    (∀ rc out, o = .completed rc out → rc ≠ 0 →
      get_video_duration o = none) ∧
    (∀ out, o = .completed 0 out → pyStrip out = "" →
      get_video_duration o = none) ∧
    (∀ out, o = .completed 0 out → parseFloat (pyStrip out) = none →
      get_video_duration o = none) := by
  refine ⟨?_, ?_, ?_, ?_⟩
  · intro e he
    subst he
    rfl
  · intro rc out ho hrc
    subst ho
    simp [get_video_duration, hrc]
  · intro out ho hs
    subst ho
    simp [get_video_duration, hs]
  · intro out ho hp
    subst ho
    simp [get_video_duration, hp]

/-- C6 witness: ffprobe writing the non-numeric duration `N/A` on a zero
exit yields an absent duration. -/
theorem duration_probe_absent_witness :
    get_video_duration (.completed 0 "N/A") = none :=
  (duration_probe_absent_not_error (.completed 0 "N/A")).2.2.2 "N/A" rfl
    (by decide)

/-- C7 (confirmed).  When the probed duration is unknown, convert_video
delivers zero percent events, and the job still runs to completion: if
the subprocess exits with status 0 and the expected output file exists
and is non-empty, the result is Succeeded. -/
theorem convert_video_unknown_duration (hasCb : Bool) (env : JobEnv)
    (hdur : get_video_duration env.probe = none) :
    (convert_video hasCb env).2 = [] ∧
    (∀ lines rc, env.exec = .exited lines rc → rc = 0 →
      (∃ n, env.output = some n ∧ 0 < n) →
      (convert_video hasCb env).1 = true) := by
  have hev : ∀ ls,
      progressEvents hasCb (get_video_duration env.probe) ls = [] := fun ls =>
    List.filterMap_eq_nil_iff.mpr fun l _ =>
      processLine_eq_none hasCb _ l (Or.inr (Or.inl hdur))
  constructor
  · cases hex : env.exec with
    | raised lr e => simp [convert_video, hex, hev]
    | exited ls rc =>
      simp only [convert_video, hex]
      split_ifs <;> simp [hev]
  · rintro lines rc hex rfl ⟨n, hn, -⟩
    simp [convert_video, hex, outputExists, hn]

/-- C7 witness: unknown duration (the probe timed out), exit status 0,
output file of size 5: no events and Succeeded. -/
theorem convert_video_unknown_duration_witness :
    (convert_video true
      ⟨.raised .timeoutExpired,
       .exited ["time=00:00:10.00".data] 0, some 5⟩).2 = [] ∧
    (convert_video true
      ⟨.raised .timeoutExpired,
       .exited ["time=00:00:10.00".data] 0, some 5⟩).1 = true := by
  have h := convert_video_unknown_duration true
    ⟨.raised .timeoutExpired, .exited ["time=00:00:10.00".data] 0, some 5⟩ rfl
  exact ⟨h.1, h.2 ["time=00:00:10.00".data] 0 rfl rfl ⟨5, rfl, by norm_num⟩⟩

/-- C8 (confirmed).  Any exception raised inside convert_video's `try`
block (spawn, stream read, callback, wait) is absorbed by
`except Exception` into a Failed result, and the batch loop still
produces its outcome for that file and every other file: replacing one
job of a batch by a raising one only turns that job's entry into a
failure. -/
theorem convert_video_catches_exceptions (hasCb : Bool) (env : JobEnv)
    (linesRead : List (List Char)) (e : PyExn)
    (h : env.exec = .raised linesRead e)
    (f : String) (pre post : List (String × JobEnv)) :
    (convert_video hasCb env).1 = false ∧
    conversion_thread (pre ++ (f, env) :: post) =
      conversion_thread pre ++ (f, false) :: conversion_thread post := by
  have h2 : (convert_video true env).1 = false := by
    simp [convert_video, h]
  refine ⟨by simp [convert_video, h], ?_⟩
  induction pre with
  | nil => simp [conversion_thread, h2]
  | cons p rest ih =>
    cases p
    simp [conversion_thread, ih]

/-- C8 witness: a job whose subprocess spawn raises `PermissionError` is
Failed, and the following job of the batch still gets its outcome. -/
theorem convert_video_catches_exceptions_witness :
    (convert_video true
      ⟨.raised .timeoutExpired, .raised [] .permissionError, none⟩).1 =
      false ∧
    conversion_thread
      [("a.mp4", ⟨.raised .timeoutExpired, .raised [] .permissionError, none⟩),
       ("b.mp4", ⟨.raised .timeoutExpired, .exited [] 0, some 3⟩)] =
      conversion_thread [] ++ ("a.mp4", false) ::
        conversion_thread
          [("b.mp4", ⟨.raised .timeoutExpired, .exited [] 0, some 3⟩)] :=
  convert_video_catches_exceptions true
    ⟨.raised .timeoutExpired, .raised [] .permissionError, none⟩ []
    .permissionError rfl "a.mp4" []
    [("b.mp4", ⟨.raised .timeoutExpired, .exited [] 0, some 3⟩)]

/-- C9 (confirmed).  The batch loop produces exactly one outcome per
submitted file, in submission order: the outcome list is the input list
mapped through the per-job conversion, so cardinality and order are
preserved and no job is dropped (convert_video is total, so no per-job
fault can abort the loop; the code has no mid-batch cancellation path, so
every execution is covered). -/
theorem batch_one_outcome_per_job_in_order (jobs : List (String × JobEnv)) :
    (conversion_thread jobs).length = jobs.length ∧
    conversion_thread jobs =
      jobs.map (fun j => (j.1, (convert_video true j.2).1)) := by
  refine ⟨?_, conversion_thread_eq_map jobs⟩
  rw [conversion_thread_eq_map jobs, List.length_map]

/-- C10 (confirmed).  If the probed duration is absent or `0.0` (both
falsy in Python), or no progress callback was supplied, the guard on
src/utils.py line 296 short-circuits before the timestamp match, so no
percent value is ever computed: the elapsed/duration division is never
evaluated, in particular never with a zero divisor. -/
theorem no_percent_computation_when_indeterminate (hasCb : Bool)
    (env : JobEnv)
    (h : hasCb = false ∨ get_video_duration env.probe = none ∨
      get_video_duration env.probe = some 0) :
    (convert_video hasCb env).2 = [] := by
  have hev : ∀ ls,
      progressEvents hasCb (get_video_duration env.probe) ls = [] := fun ls =>
    List.filterMap_eq_nil_iff.mpr fun l _ =>
      processLine_eq_none hasCb _ l h
  cases hex : env.exec with
  | raised lr e => simp [convert_video, hex, hev]
  | exited ls rc =>
    simp only [convert_video, hex]
    split_ifs <;> simp [hev]

/-- C10 witness: duration probe raised (duration absent), so a stream
that does carry a timestamp still yields no percent events. -/
theorem no_percent_computation_witness :
    (convert_video true
      ⟨.raised .fileNotFound,
       .exited ["time=00:00:10.00".data] 1, none⟩).2 = [] :=
  no_percent_computation_when_indeterminate true
    ⟨.raised .fileNotFound, .exited ["time=00:00:10.00".data] 1, none⟩
    (Or.inr (Or.inl rfl))

end VideoConverter
